import Mathlib

set_option maxRecDepth 8192

/-!
Verification of the identity-keyed credential registry
(`src/phase6_solana/solana_registry/src/lib.rs`, with the duplicate copy in
`src/phases/phase5_solana/solana_registry/src/lib.rs`).

The program is an Anchor (Solana) program.  We shallow-embed the three
instructions `register_key`, `update_key`, `verify_key` together with the
account constraints declared on their `#[derive(Accounts)]` structs
(`RegisterKey`, `UpdateKey`, `VerifyKey`), since those constraints are part
of each instruction's behaviour:

* account existence / deserialization of `Account<KeyRecord>` (absent or
  uninitialized account aborts the instruction before the handler runs);
* `init` (fails when the target account already exists);
* `seeds = [b"key_record", ...], bump` / `bump = key_record.bump`
  (the program-derived-address re-derivation check);
* `has_one = owner @ KeyRegistryError::Unauthorized`.

The host's address-derivation primitive (SHA-256 based
`create_program_address`, which fails when the candidate lies on the
Ed25519 curve) is not part of this repository; we abstract it as an
arbitrary function `pda : Pubkey → Byte → Option Pubkey` (the seed prefix
`b"key_record"` is fixed throughout the program, so only the owner key and
the bump byte vary).  `find_program_address` is the host's search over
bump bytes, iterating from 255 downwards, exactly as on the host.

Chain state is modelled as an association list from account address to
stored `KeyRecord`; an instruction returns `Except RegError Store`, and an
error leaves the chain state untouched (Solana transactions are
all-or-nothing), which the runners `runRegister` / `runUpdate` make
explicit.
-/

/-- An account address / principal identity (a Solana `Pubkey`), kept
opaque: the program only ever compares these for equality. -/
abbrev Pubkey := Nat

/-- One byte, the PDA bump seed (`u8` in the source). -/
abbrev Byte := Fin 256

/-- A 32-byte value: the Ed25519-format public-key credential
(`[u8; 32]` in the source), treated as opaque bytes. -/
abbrev Key32 := { l : List Byte // l.length = 32 }

/-- The persisted record (struct `KeyRecord` in the source):
`owner` (32-byte wallet address), `public_key` (32-byte Ed25519 key),
`bump` (1-byte PDA bump seed). -/
structure KeyRecord where
  owner : Pubkey
  public_key : Key32
  bump : Byte
deriving DecidableEq

/-- Error outcomes of an instruction.  `Unauthorized` is the program's own
`KeyRegistryError::Unauthorized`; the others are failures raised by the
host/Anchor machinery around the handler, under the spec's names:
`AlreadyRegistered` (the `init` constraint on an already-existing account),
`NotFound` (the record account is absent / not initialized),
`ConstraintSeeds` (the `seeds`/`bump` re-derivation check fails, Anchor's
error 2006), `AddressExhausted` (no bump byte yields a valid address). -/
inductive RegError where
  | Unauthorized
  | AlreadyRegistered
  | NotFound
  | ConstraintSeeds
  | AddressExhausted
deriving DecidableEq

/-- The host's `create_program_address` for this program's fixed seed
layout `[b"key_record", owner, bump]`, abstracted: `none` models a
candidate that fails the host's validity predicate (lies on the curve). -/
abbrev Pda := Pubkey → Byte → Option Pubkey

/-- The host's `find_program_address`: try bump bytes from 255 downwards
and return the first `(address, bump)` accepted by `pda`. -/
def findProgramAddress (pda : Pda) (owner : Pubkey) : Option (Pubkey × Byte) :=
  ((List.finRange 256).reverse).findSome? fun b => (pda owner b).map fun a => (a, b)

/-- On-chain state: which addresses hold a `KeyRecord`, and its contents. -/
abbrev Store := List (Pubkey × KeyRecord)

/-- Read the record stored at an address (most recent write wins). -/
def lookupRec : Store → Pubkey → Option KeyRecord
  | [], _ => none
  | (a, r) :: rest, x => if x = a then some r else lookupRec rest x

/-- Write a record at an address. -/
def setRec (st : Store) (a : Pubkey) (r : KeyRecord) : Store :=
  (a, r) :: st

namespace phase6

/-- Instruction `register_key` (handler at lib.rs:17-27, accounts struct
`RegisterKey` at lib.rs:76-92).  The `key_record` account is created at the
canonical PDA for seeds `[b"key_record", owner.key()]` (constraint
`seeds = [b"key_record", owner.key().as_ref()], bump`); `init` fails when
that account already exists.  The handler then sets
`owner := ctx.accounts.owner.key()` (the signer), `public_key`, and
`bump := ctx.bumps.key_record` (the canonical bump found by derivation).
The `payer`/`space`/`system_program` funding machinery is host bookkeeping
and not modelled. -/
def register_key (pda : Pda) (st : Store) (owner : Pubkey) (public_key : Key32) :
    Except RegError Store :=
  match findProgramAddress pda owner with
  | none => .error .AddressExhausted
  | some (addr, bump) =>
    match lookupRec st addr with
    | some _ => .error .AlreadyRegistered
    | none => .ok (setRec st addr { owner := owner, public_key := public_key, bump := bump })

/-- Instruction `update_key` (handler at lib.rs:36-52, accounts struct
`UpdateKey` at lib.rs:94-107).  `owner` is the authorizing signer;
`key_record_addr` is the caller-supplied `key_record` account.  In order:
deserialization of `Account<KeyRecord>` (absent account aborts); the
`seeds = [b"key_record", owner.key().as_ref()], bump = key_record.bump`
constraint (the supplied account must equal the address re-derived from
the signer's key and the stored bump); the
`has_one = owner @ KeyRegistryError::Unauthorized` constraint; then the
handler's own `require_keys_eq!(key_record.owner, ctx.accounts.owner.key(),
KeyRegistryError::Unauthorized)` re-check, and the write of
`key_record.public_key = new_public_key`. -/
def update_key (pda : Pda) (st : Store) (owner : Pubkey) (key_record_addr : Pubkey)
    (new_public_key : Key32) : Except RegError Store :=
  match lookupRec st key_record_addr with
  | none => .error .NotFound
  | some key_record =>
    if pda owner key_record.bump ≠ some key_record_addr then
      .error .ConstraintSeeds
    else if key_record.owner ≠ owner then
      .error .Unauthorized
    else if key_record.owner ≠ owner then
      .error .Unauthorized
    else
      .ok (setRec st key_record_addr { key_record with public_key := new_public_key })

/-- Instruction `verify_key` (handler at lib.rs:62-73, accounts struct
`VerifyKey` at lib.rs:109-117).  No signer account is declared: the check
is public.  In order: deserialization of the supplied `key_record` account;
the `seeds = [b"key_record", key_record.owner.as_ref()],
bump = key_record.bump` constraint (re-derivation from the STORED owner and
bump); then the handler returns `key_record.public_key ==
public_key_to_verify`.  The handler never writes, so no new store is
produced. -/
def verify_key (pda : Pda) (st : Store) (key_record_addr : Pubkey)
    (public_key_to_verify : Key32) : Except RegError Bool :=
  match lookupRec st key_record_addr with
  | none => .error .NotFound
  | some key_record =>
    if pda key_record.owner key_record.bump ≠ some key_record_addr then
      .error .ConstraintSeeds
    else
      .ok (decide (key_record.public_key = public_key_to_verify))

/-- Chain state after a `register_key` transaction: a failed transaction
commits nothing. -/
def runRegister (pda : Pda) (st : Store) (owner : Pubkey) (public_key : Key32) : Store :=
  match register_key pda st owner public_key with
  | .ok st' => st'
  | .error _ => st

/-- Chain state after an `update_key` transaction: a failed transaction
commits nothing. -/
def runUpdate (pda : Pda) (st : Store) (owner : Pubkey) (key_record_addr : Pubkey)
    (new_public_key : Key32) : Store :=
  match update_key pda st owner key_record_addr new_public_key with
  | .ok st' => st'
  | .error _ => st

end phase6

namespace phase5

/-- Instruction `register_key` of the phase-5 copy
(`src/phases/phase5_solana/solana_registry/src/lib.rs:10-20`, accounts
struct `RegisterKey` at lib.rs:56-72); the code is identical to the
phase-6 copy up to comments. -/
def register_key (pda : Pda) (st : Store) (owner : Pubkey) (public_key : Key32) :
    Except RegError Store :=
  match findProgramAddress pda owner with
  | none => .error .AddressExhausted
  | some (addr, bump) =>
    match lookupRec st addr with
    | some _ => .error .AlreadyRegistered
    | none => .ok (setRec st addr { owner := owner, public_key := public_key, bump := bump })

/-- Instruction `update_key` of the phase-5 copy (lib.rs:23-39, accounts
struct `UpdateKey` at lib.rs:74-87); identical to the phase-6 copy up to
comments. -/
def update_key (pda : Pda) (st : Store) (owner : Pubkey) (key_record_addr : Pubkey)
    (new_public_key : Key32) : Except RegError Store :=
  match lookupRec st key_record_addr with
  | none => .error .NotFound
  | some key_record =>
    if pda owner key_record.bump ≠ some key_record_addr then
      .error .ConstraintSeeds
    else if key_record.owner ≠ owner then
      .error .Unauthorized
    else if key_record.owner ≠ owner then
      .error .Unauthorized
    else
      .ok (setRec st key_record_addr { key_record with public_key := new_public_key })

/-- Instruction `verify_key` of the phase-5 copy (lib.rs:42-53, accounts
struct `VerifyKey` at lib.rs:89-97); identical to the phase-6 copy up to
comments. -/
def verify_key (pda : Pda) (st : Store) (key_record_addr : Pubkey)
    (public_key_to_verify : Key32) : Except RegError Bool :=
  match lookupRec st key_record_addr with
  | none => .error .NotFound
  | some key_record =>
    if pda key_record.owner key_record.bump ≠ some key_record_addr then
      .error .ConstraintSeeds
    else
      .ok (decide (key_record.public_key = public_key_to_verify))

end phase5

/-- A concrete instantiation of the host derivation primitive, used to
exercise the theorems on concrete inputs: every candidate is accepted, and
distinct (owner, bump) pairs give distinct addresses. -/
def pdaW : Pda := fun o b => some (257 * o + b.val)

/-- A concrete degenerate host derivation primitive mapping everything to
address 255 (a colliding hash), used to exercise the code path where a
foreign signer's re-derivation lands on the attacked record. -/
def pdaC : Pda := fun _ _ => some 255

/-- The all-zero 32-byte credential. -/
def zeroKey : Key32 := ⟨List.replicate 32 0, by decide⟩

/-- A 32-byte credential distinct from `zeroKey`. -/
def oneKey : Key32 := ⟨1 :: List.replicate 31 0, by decide⟩

/-- The canonical bump found by `findProgramAddress pdaW`: the search
starts at 255 and `pdaW` accepts every candidate. -/
def b255 : Byte := 255

/-- The record created by `register_key pdaW` on the empty chain for
owner 0 and credential `zeroKey`. -/
def recW : KeyRecord := { owner := 0, public_key := zeroKey, bump := b255 }

/-- The chain state after that registration: `recW` stored at its derived
address `pdaW 0 255 = 255`. -/
def stW : Store := [(255, recW)]

/-- Whatever `find_program_address` returns was accepted by the
`create_program_address` primitive at the returned bump. -/
theorem findProgramAddress_spec (pda : Pda) (owner : Pubkey) (addr : Pubkey) (bump : Byte)
    (h : findProgramAddress pda owner = some (addr, bump)) : pda owner bump = some addr := by
  unfold findProgramAddress at h
  obtain ⟨b, _, hb⟩ := List.exists_of_findSome?_eq_some h
  rcases Option.map_eq_some'.mp hb with ⟨a, ha, heq⟩
  rw [Prod.mk.injEq] at heq
  obtain ⟨rfl, rfl⟩ := heq
  exact ha

theorem lookupRec_setRec_self (st : Store) (a : Pubkey) (r : KeyRecord) :
    lookupRec (setRec st a r) a = some r := by
  simp [setRec, lookupRec]

theorem lookupRec_setRec_ne (st : Store) (a x : Pubkey) (r : KeyRecord) (h : x ≠ a) :
    lookupRec (setRec st a r) x = lookupRec st x := by
  simp [setRec, lookupRec, h]

/-- A successful `register_key` means: derivation produced `(addr, bump)`,
the slot was unoccupied, and the new state stores the self-owned record
there. -/
theorem register_key_ok_elim (pda : Pda) (st : Store) (owner : Pubkey) (K : Key32)
    (st' : Store) (h : phase6.register_key pda st owner K = .ok st') :
    ∃ addr bump, findProgramAddress pda owner = some (addr, bump) ∧
      lookupRec st addr = none ∧
      st' = setRec st addr { owner := owner, public_key := K, bump := bump } := by
  unfold phase6.register_key at h
  split at h
  · cases h
  next addr bump hfind =>
    split at h
    · cases h
    next hlook =>
      exact ⟨addr, bump, hfind, hlook, (Except.ok.inj h).symm⟩

/-- A successful `update_key` means: a record was stored at the supplied
address, the seeds re-derivation from the signer and the stored bump
confirmed that address, the signer is the stored owner, and the new state
overwrites only the credential. -/
theorem update_key_ok_elim (pda : Pda) (st : Store) (owner r : Pubkey) (k2 : Key32)
    (st' : Store) (h : phase6.update_key pda st owner r k2 = .ok st') :
    ∃ rec, lookupRec st r = some rec ∧ pda owner rec.bump = some r ∧
      rec.owner = owner ∧ st' = setRec st r { rec with public_key := k2 } := by
  unfold phase6.update_key at h
  split at h
  · cases h
  next rec hlook =>
    split at h
    · cases h
    next hseeds =>
      split at h
      · cases h
      next hown =>
        exact ⟨rec, hlook, not_not.mp hseeds, not_not.mp hown, (Except.ok.inj h).symm⟩

/-- A successful `verify_key` means: a record was stored at the supplied
address, the seeds re-derivation from the stored owner and bump confirmed
that address, and the returned boolean is the equality of the stored
credential with the candidate. -/
theorem verify_key_ok_elim (pda : Pda) (st : Store) (r : Pubkey) (c : Key32) (b : Bool)
    (h : phase6.verify_key pda st r c = .ok b) :
    ∃ rec, lookupRec st r = some rec ∧ pda rec.owner rec.bump = some r ∧
      b = decide (rec.public_key = c) := by
  unfold phase6.verify_key at h
  split at h
  · cases h
  next rec hlook =>
    split at h
    · cases h
    next hseeds =>
      exact ⟨rec, hlook, not_not.mp hseeds, (Except.ok.inj h).symm⟩

/-- Forward evaluation of `verify_key` on a stored record whose seeds
check passes. -/
theorem verify_key_eq (pda : Pda) (st : Store) (r : Pubkey) (rec : KeyRecord) (c : Key32)
    (hrec : lookupRec st r = some rec) (hseeds : pda rec.owner rec.bump = some r) :
    phase6.verify_key pda st r c = .ok (decide (rec.public_key = c)) := by
  simp only [phase6.verify_key, hrec]
  rw [if_neg (by simpa using hseeds)]

/-- Forward evaluation of a legitimate `update_key`. -/
theorem update_key_eq_ok (pda : Pda) (st : Store) (owner r : Pubkey) (rec : KeyRecord)
    (k2 : Key32) (hrec : lookupRec st r = some rec)
    (hseeds : pda owner rec.bump = some r) (hown : rec.owner = owner) :
    phase6.update_key pda st owner r k2 = .ok (setRec st r { rec with public_key := k2 }) := by
  simp only [phase6.update_key, hrec]
  rw [if_neg (by simpa using hseeds), if_neg (by simpa using hown),
    if_neg (by simpa using hown)]

/-- C1 counterexample: on the concrete chain `stW` holding the record of
owner 0 with credential `zeroKey`, an update signed by 1 ≠ 0 naming that
record fails — but with the seeds-constraint error raised by the account
re-derivation check (which, under the collision-free derivation `pdaW`,
fires before `has_one`), not with `Unauthorized` as the claim states. -/
theorem c1_counterexample :
    lookupRec stW 255 = some recW ∧ recW.owner = 0 ∧ (1 : Pubkey) ≠ 0 ∧
    phase6.update_key pdaW stW 1 255 oneKey = .error .ConstraintSeeds ∧
    phase6.update_key pdaW stW 1 255 oneKey ≠ .error .Unauthorized := by
  refine ⟨rfl, rfl, by decide, rfl, ?_⟩
  rw [show phase6.update_key pdaW stW 1 255 oneKey = .error .ConstraintSeeds from rfl]
  intro hcontra
  exact RegError.noConfusion (Except.error.inj hcontra)

/-- C1 (amended): for every stored record and update request whose
authorizing signer B differs from the stored owner, the update fails and
no state changes; the error is `Unauthorized` exactly when the supplied
record account equals the address re-derived from B with the stored bump
(the case that reaches the `has_one` authorization check), and the
seeds-constraint violation otherwise. -/
theorem c1_unauthorized_update_rejected (pda : Pda) (st : Store) (B r : Pubkey)
    (rec : KeyRecord) (k2 : Key32)
    (hrec : lookupRec st r = some rec) (hne : rec.owner ≠ B) :
    phase6.update_key pda st B r k2 =
      .error (if pda B rec.bump = some r then .Unauthorized else .ConstraintSeeds) ∧
    phase6.runUpdate pda st B r k2 = st := by
  have hupd : phase6.update_key pda st B r k2 =
      .error (if pda B rec.bump = some r then .Unauthorized else .ConstraintSeeds) := by
    simp only [phase6.update_key, hrec]
    by_cases hseeds : pda B rec.bump = some r
    · rw [if_neg (by simpa using hseeds), if_pos hne, if_pos hseeds]
    · rw [if_pos (by simpa using hseeds), if_neg hseeds]
  exact ⟨hupd, by simp only [phase6.runUpdate, hupd]⟩

/-- C1 witness: the amended statement applied on concrete inputs, once
with the collision-free derivation `pdaW` (seeds-constraint branch) and
once with the colliding derivation `pdaC` (the `Unauthorized` branch). -/
theorem c1_unauthorized_update_rejected_witness :
    (phase6.update_key pdaW stW 1 255 oneKey =
      .error (if pdaW 1 recW.bump = some 255 then .Unauthorized else .ConstraintSeeds) ∧
     phase6.runUpdate pdaW stW 1 255 oneKey = stW) ∧
    (phase6.update_key pdaC stW 1 255 oneKey =
      .error (if pdaC 1 recW.bump = some 255 then .Unauthorized else .ConstraintSeeds) ∧
     phase6.runUpdate pdaC stW 1 255 oneKey = stW) :=
  ⟨c1_unauthorized_update_rejected pdaW stW 1 255 recW oneKey rfl (by decide),
   c1_unauthorized_update_rejected pdaC stW 1 255 recW oneKey rfl (by decide)⟩

/-- C2: after a successful register(A, K), verifying K at the derived
slot returns true and verifying any K' ≠ K returns false. -/
theorem c2_register_then_verify (pda : Pda) (st st' : Store) (A : Pubkey)
    (K K' : Key32) (addr : Pubkey) (bump : Byte)
    (hfind : findProgramAddress pda A = some (addr, bump))
    (hreg : phase6.register_key pda st A K = .ok st')
    (hne : K' ≠ K) :
    phase6.verify_key pda st' addr K = .ok true ∧
    phase6.verify_key pda st' addr K' = .ok false := by
  obtain ⟨addr', bump', hfind', hlook, hst'⟩ := register_key_ok_elim pda st A K st' hreg
  injection hfind.symm.trans hfind' with h
  injection h with ha hb
  subst ha; subst hb
  have hrec : lookupRec st' addr = some { owner := A, public_key := K, bump := bump } := by
    rw [hst']; exact lookupRec_setRec_self st addr _
  have hseeds : pda A bump = some addr := findProgramAddress_spec pda A addr bump hfind
  constructor
  · rw [verify_key_eq pda st' addr _ K hrec hseeds]
    simp
  · rw [verify_key_eq pda st' addr _ K' hrec hseeds]
    simp [Ne.symm hne]

/-- C2 witness: registering owner 0 with `zeroKey` on the empty chain,
then verifying `zeroKey` (true) and `oneKey` (false). -/
theorem c2_register_then_verify_witness :
    phase6.verify_key pdaW stW 255 zeroKey = .ok true ∧
    phase6.verify_key pdaW stW 255 oneKey = .ok false :=
  c2_register_then_verify pdaW [] stW 0 zeroKey oneKey 255 b255 (by decide) rfl (by decide)

/-- C3: a successful update changes only the credential of the targeted
record: its owner and bump are unchanged, and every other address holds
exactly what it held before. -/
theorem c3_update_frame (pda : Pda) (st st' : Store) (s r : Pubkey) (k2 : Key32)
    (h : phase6.update_key pda st s r k2 = .ok st') :
    ∃ rec rec', lookupRec st r = some rec ∧ lookupRec st' r = some rec' ∧
      rec'.owner = rec.owner ∧ rec'.bump = rec.bump ∧ rec'.public_key = k2 ∧
      ∀ a, a ≠ r → lookupRec st' a = lookupRec st a := by
  obtain ⟨rec, hlook, hseeds, hown, hst'⟩ := update_key_ok_elim pda st s r k2 st' h
  refine ⟨rec, { rec with public_key := k2 }, hlook, ?_, rfl, rfl, rfl, ?_⟩
  · rw [hst']; exact lookupRec_setRec_self st r _
  · intro a ha; rw [hst']; exact lookupRec_setRec_ne st r a _ ha

/-- C3 witness: the frame property on a concrete successful update of the
record of owner 0 from `zeroKey` to `oneKey`. -/
theorem c3_update_frame_witness :
    ∃ rec rec', lookupRec stW 255 = some rec ∧
      lookupRec (setRec stW 255 { recW with public_key := oneKey }) 255 = some rec' ∧
      rec'.owner = rec.owner ∧ rec'.bump = rec.bump ∧ rec'.public_key = oneKey ∧
      ∀ a, a ≠ 255 →
        lookupRec (setRec stW 255 { recW with public_key := oneKey }) a = lookupRec stW a :=
  c3_update_frame pdaW stW _ 0 255 oneKey rfl

/-- C4: once register(A, K) has succeeded, a second register of A fails
with `AlreadyRegistered`, commits nothing, and the stored credential at
A's derived slot remains K. -/
theorem c4_double_register_rejected (pda : Pda) (st st' : Store) (A : Pubkey)
    (K K2 : Key32) (hreg : phase6.register_key pda st A K = .ok st') :
    phase6.register_key pda st' A K2 = .error .AlreadyRegistered ∧
    phase6.runRegister pda st' A K2 = st' ∧
    ∃ addr bump, findProgramAddress pda A = some (addr, bump) ∧
      lookupRec st' addr = some { owner := A, public_key := K, bump := bump } := by
  obtain ⟨addr, bump, hfind, hlook, hst'⟩ := register_key_ok_elim pda st A K st' hreg
  have hlook' : lookupRec st' addr = some { owner := A, public_key := K, bump := bump } := by
    rw [hst']; exact lookupRec_setRec_self st addr _
  have hreg2 : phase6.register_key pda st' A K2 = .error .AlreadyRegistered := by
    simp only [phase6.register_key, hfind, hlook']
  exact ⟨hreg2, by simp only [phase6.runRegister, hreg2], addr, bump, hfind, hlook'⟩

/-- C4 witness: registering owner 0 twice on concrete inputs. -/
theorem c4_double_register_rejected_witness :
    phase6.register_key pdaW stW 0 oneKey = .error .AlreadyRegistered ∧
    phase6.runRegister pdaW stW 0 oneKey = stW ∧
    ∃ addr bump, findProgramAddress pdaW 0 = some (addr, bump) ∧
      lookupRec stW addr = some { owner := 0, public_key := zeroKey, bump := bump } :=
  c4_double_register_rejected pdaW [] stW 0 zeroKey oneKey rfl

/-- C5: on an existing record, verify returns exactly the boolean
equality of the stored credential with the candidate — any mismatching
candidate (all-zero or otherwise) yields `.ok false`, never a format
error; the operation takes no signer and returns no new state. -/
theorem c5_verify_pure_equality (pda : Pda) (st : Store) (r : Pubkey) (rec : KeyRecord)
    (c : Key32) (hrec : lookupRec st r = some rec)
    (hseeds : pda rec.owner rec.bump = some r) :
    phase6.verify_key pda st r c = .ok (decide (rec.public_key = c)) ∧
    (rec.public_key ≠ c → phase6.verify_key pda st r c = .ok false) := by
  refine ⟨verify_key_eq pda st r rec c hrec hseeds, fun hne => ?_⟩
  rw [verify_key_eq pda st r rec c hrec hseeds]
  simp [hne]

/-- C5 witness: verifying the mismatching `oneKey` against the stored
`zeroKey` yields `.ok false`. -/
theorem c5_verify_pure_equality_witness :
    phase6.verify_key pdaW stW 255 oneKey = .ok (decide (recW.public_key = oneKey)) ∧
    phase6.verify_key pdaW stW 255 oneKey = .ok false :=
  ⟨(c5_verify_pure_equality pdaW stW 255 recW oneKey rfl (by decide)).1,
   (c5_verify_pure_equality pdaW stW 255 recW oneKey rfl (by decide)).2 (by decide)⟩

/-- C6: update and verify naming an address holding no record both fail
with `NotFound`. -/
theorem c6_absent_not_found (pda : Pda) (st : Store) (s r : Pubkey) (k c : Key32)
    (habs : lookupRec st r = none) :
    phase6.update_key pda st s r k = .error .NotFound ∧
    phase6.verify_key pda st r c = .error .NotFound := by
  constructor
  · simp only [phase6.update_key, habs]
  · simp only [phase6.verify_key, habs]

/-- C6 witness: update and verify against the empty chain. -/
theorem c6_absent_not_found_witness :
    phase6.update_key pdaW [] 0 0 oneKey = .error .NotFound ∧
    phase6.verify_key pdaW [] 0 oneKey = .error .NotFound :=
  c6_absent_not_found pdaW [] 0 0 oneKey oneKey rfl

/-- C7: a successful register with authorizing signer S creates the
record at the derived slot with owner = S, the supplied credential, and
the bump found by derivation. -/
theorem c7_register_self_owned (pda : Pda) (st st' : Store) (S : Pubkey) (K : Key32)
    (h : phase6.register_key pda st S K = .ok st') :
    ∃ addr bump, findProgramAddress pda S = some (addr, bump) ∧
      st' = setRec st addr { owner := S, public_key := K, bump := bump } ∧
      lookupRec st' addr = some { owner := S, public_key := K, bump := bump } := by
  obtain ⟨addr, bump, hfind, hlook, hst'⟩ := register_key_ok_elim pda st S K st' h
  exact ⟨addr, bump, hfind, hst', by rw [hst']; exact lookupRec_setRec_self st addr _⟩

/-- C7 witness: registering owner 0 with `zeroKey` on the empty chain. -/
theorem c7_register_self_owned_witness :
    ∃ addr bump, findProgramAddress pdaW 0 = some (addr, bump) ∧
      stW = setRec [] addr { owner := 0, public_key := zeroKey, bump := bump } ∧
      lookupRec stW addr = some { owner := 0, public_key := zeroKey, bump := bump } :=
  c7_register_self_owned pdaW [] stW 0 zeroKey rfl

/-- C8: update and verify only proceed when the supplied record account
is the address re-derived by the host primitive with the stored bump —
from the signer's identity for update, from the stored owner for
verify. -/
theorem c8_slot_rederivation (pda : Pda) (st : Store) (s r : Pubkey) (k c : Key32) :
    (∀ st', phase6.update_key pda st s r k = .ok st' →
      ∃ rec, lookupRec st r = some rec ∧ pda s rec.bump = some r) ∧
    (∀ b, phase6.verify_key pda st r c = .ok b →
      ∃ rec, lookupRec st r = some rec ∧ pda rec.owner rec.bump = some r) := by
  constructor
  · intro st' h
    obtain ⟨rec, hlook, hseeds, _, _⟩ := update_key_ok_elim pda st s r k st' h
    exact ⟨rec, hlook, hseeds⟩
  · intro b h
    obtain ⟨rec, hlook, hseeds, _⟩ := verify_key_ok_elim pda st r c b h
    exact ⟨rec, hlook, hseeds⟩

/-- C8 witness: the guard applied to a concrete successful update and a
concrete successful verify on `stW`. -/
theorem c8_slot_rederivation_witness :
    (∃ rec, lookupRec stW 255 = some rec ∧ pdaW 0 rec.bump = some 255) ∧
    (∃ rec, lookupRec stW 255 = some rec ∧ pdaW rec.owner rec.bump = some 255) :=
  ⟨(c8_slot_rederivation pdaW stW 0 255 oneKey zeroKey).1 _ rfl,
   (c8_slot_rederivation pdaW stW 0 255 oneKey zeroKey).2 true rfl⟩

/-- C9: after register(A, K), updating with the identical credential K
succeeds, leaves the record exactly as it was, and verify(K) still
returns true. -/
theorem c9_update_idempotent (pda : Pda) (st st' : Store) (A : Pubkey) (K : Key32)
    (hreg : phase6.register_key pda st A K = .ok st') :
    ∃ addr bump st'', findProgramAddress pda A = some (addr, bump) ∧
      phase6.update_key pda st' A addr K = .ok st'' ∧
      lookupRec st'' addr = lookupRec st' addr ∧
      phase6.verify_key pda st'' addr K = .ok true := by
  obtain ⟨addr, bump, hfind, hlook, hst'⟩ := register_key_ok_elim pda st A K st' hreg
  have hseeds := findProgramAddress_spec pda A addr bump hfind
  have hrec : lookupRec st' addr = some { owner := A, public_key := K, bump := bump } := by
    rw [hst']; exact lookupRec_setRec_self st addr _
  have hupd := update_key_eq_ok pda st' A addr
    { owner := A, public_key := K, bump := bump } K hrec hseeds rfl
  have hrec2 : lookupRec
      (setRec st' addr ({ owner := A, public_key := K, bump := bump } : KeyRecord)) addr
      = some { owner := A, public_key := K, bump := bump } := lookupRec_setRec_self st' addr _
  refine ⟨addr, bump, _, hfind, hupd, hrec2.trans hrec.symm, ?_⟩
  rw [verify_key_eq pda _ addr _ K hrec2 hseeds]
  simp

/-- C9 witness: register(0, zeroKey); update(0, zeroKey); verify true. -/
theorem c9_update_idempotent_witness :
    ∃ addr bump st'', findProgramAddress pdaW 0 = some (addr, bump) ∧
      phase6.update_key pdaW stW 0 addr zeroKey = .ok st'' ∧
      lookupRec st'' addr = lookupRec stW addr ∧
      phase6.verify_key pdaW st'' addr zeroKey = .ok true :=
  c9_update_idempotent pdaW [] stW 0 zeroKey rfl

/-- C10: the phase-5 and phase-6 copies of the registry implement the
same program: on every derivation primitive, chain state and input, each
of the three instructions returns the same result. -/
theorem c10_phase_copies_equivalent :
    (∀ (pda : Pda) (st : Store) (s : Pubkey) (k : Key32),
      phase5.register_key pda st s k = phase6.register_key pda st s k) ∧
    (∀ (pda : Pda) (st : Store) (s r : Pubkey) (k : Key32),
      phase5.update_key pda st s r k = phase6.update_key pda st s r k) ∧
    (∀ (pda : Pda) (st : Store) (r : Pubkey) (c : Key32),
      phase5.verify_key pda st r c = phase6.verify_key pda st r c) :=
  ⟨fun _ _ _ _ => rfl, fun _ _ _ _ _ => rfl, fun _ _ _ _ => rfl⟩
